import Mathlib

/-!
Verification of the playlist-import utilities in
`quodlibet/browsers/playlists/util.py` (functions `parse_m3u`, `parse_pls`,
`__attempt_add`, `__create_playlist`, `_af_for`, and
`confirm_remove_playlist_tracks_dialog_invoke`).

The Python code reads playlist files as byte lines; we embed a byte line as
`List Nat` (byte values) and implement the `bytes` methods used by the code
(`strip`, `lower`, `startswith`, `index`, slicing) directly.  External
collaborators that live outside this repository (the `senf` codec functions,
`uri_is_valid`, `os.path.realpath`, `formats.MusicFile`,
`formats.remote.RemoteFile`, the library lookup) are abstracted into an
environment record `Env`; the control flow of the repository code itself is
embedded faithfully, including the uncaught `ValueError` that
`line.index(b"=")` can raise inside `parse_pls` (modelled with `Except`).
The type of tracks is a parameter `α`.
-/

set_option autoImplicit false

universe u v w

variable {α : Type u}

/-- ASCII whitespace bytes, the set stripped by Python `bytes.strip()`. -/
def is_space_byte (b : Nat) : Bool :=
  b == 32 || b == 9 || b == 10 || b == 13 || b == 11 || b == 12

/-- Python `bytes.strip()`: drop leading and trailing ASCII whitespace. -/
def bstrip (l : List Nat) : List Nat :=
  ((l.dropWhile is_space_byte).reverse.dropWhile is_space_byte).reverse

/-- Python `bytes.lower()` on a single byte: ASCII letters only. -/
def lower_byte (b : Nat) : Nat :=
  if 65 ≤ b && b ≤ 90 then b + 32 else b

/-- Python `bytes.lower()`. -/
def blower (l : List Nat) : List Nat := l.map lower_byte

/-- Python `bytes.startswith(p)`. -/
def bstarts : List Nat → List Nat → Bool
  | _, [] => true
  | [], _ :: _ => false
  | x :: xs, p :: ps => x == p && bstarts xs ps

/-- Python `bytes.index(b)` restricted to a single byte: index of the first
occurrence, or `none` where Python raises `ValueError`. -/
def bindex : List Nat → Nat → Option Nat
  | [], _ => none
  | x :: xs, b => if x == b then some 0 else (bindex xs b).map (· + 1)

/-- The bytes of `b"file"`. -/
def fileBytes : List Nat := [102, 105, 108, 101]

/-- The suffix of `l` strictly after the first occurrence of `=` (byte 61):
"everything after the first `=` character". -/
def after_eq (l : List Nat) : List Nat :=
  (l.dropWhile (fun b => !(b == 61))).drop 1

/-- The collaborators of the import pipeline that live outside the repository,
abstracted as pure functions.  `bytes2fsn` and `uri2fsn` return `none` where
the Python functions raise `ValueError`; `musicFile` returns `none` where
`formats.MusicFile` returns `None` (probe failure). -/
structure Env (α : Type u) where
  bytes2fsn : List Nat → Option String
  uri_is_valid : String → Bool
  uri2fsn : String → Option String
  realpath : String → String
  musicFile : String → Option α
  remoteFile : String → α

/-- Character-list prefix test, the `str.startswith` analogue on `String`
data (the built-in `String.startsWith` does not reduce definitionally). -/
def cstarts : List Char → List Char → Bool
  | _, [] => true
  | [], _ :: _ => false
  | x :: xs, p :: ps => x == p && cstarts xs ps

/-- `str.startswith(p)` on Lean strings. -/
def str_starts (s p : String) : Bool := cstarts s.data p.data

/-- `str.endswith(p)` on Lean strings. -/
def str_ends (s p : String) : Bool := cstarts s.data.reverse p.data.reverse

/-- Drop the first `n` characters of a string. -/
def str_drop (s : String) (n : Nat) : String := String.mk (s.data.drop n)

/-- `posixpath.join(a, b)` for two components, as used by `os.path.join` in
`_af_for`. -/
def os_path_join (a b : String) : String :=
  if str_starts b "/" then b
  else if a = "" then b
  else if str_ends a "/" then a ++ b
  else a ++ "/" ++ b

/-- `__attempt_add(filename, filenames)`: append `bytes2fsn(filename, utf8)`
to the accumulated list, swallowing a decoding `ValueError`. -/
def attempt_add (env : Env α) (filename : List Nat) (filenames : List String) :
    List String :=
  match env.bytes2fsn filename with
  | some f => filenames ++ [f]
  | none => filenames

/-- The filename-collection loop of `parse_m3u`: strip each line, skip lines
starting with `#`, attempt to add every other line. -/
def m3u_filenames (env : Env α) : List (List Nat) → List String → List String
  | [], acc => acc
  | l :: ls, acc =>
    let line := bstrip l
    if bstarts line [35] then m3u_filenames env ls acc
    else m3u_filenames env ls (attempt_add env line acc)

/-- The filename-collection loop of `parse_pls`: strip each line, skip lines
whose lowercase form does not start with `file`, and for the others take
everything after the first `=` (stripped) and attempt to add it.
`line.index(b"=")` raises `ValueError` when the line has no `=`; that
exception is not caught, so it aborts the whole parse (`Except.error`). -/
def pls_filenames (env : Env α) :
    List (List Nat) → List String → Except Unit (List String)
  | [], acc => Except.ok acc
  | l :: ls, acc =>
    let line := bstrip l
    if !(bstarts (blower line) fileBytes) then pls_filenames env ls acc
    else
      match bindex line 61 with
      | none => Except.error ()
      | some i =>
        let fn := bstrip (line.drop (i + 1))
        pls_filenames env ls (attempt_add env fn acc)

/-- `_af_for(filename, library, pl_dir)`: join with the playlist directory,
canonicalize with `realpath`, look the result up in the library when one is
given, and fall back to probing with `formats.MusicFile` (which yields `none`
on failure). -/
def _af_for (env : Env α) (library : Option (String → Option α))
    (pl_dir filename : String) : Option α :=
  let full_path := os_path_join pl_dir filename
  let path := env.realpath full_path
  let af : Option α :=
    match library with
    | some lib => lib path
    | none => none
  match af with
  | some a => some a
  | none => env.musicFile path

/-- `_af_for` instrumented with the number of library `get_filename` calls it
performs; used to state that the library is queried exactly once when it is
supplied. -/
def _af_for_queries (env : Env α) (library : Option (String → Option α))
    (pl_dir filename : String) : Option α × Nat :=
  let full_path := os_path_join pl_dir filename
  let path := env.realpath full_path
  match library with
  | some lib =>
    (match lib path with
     | some a => some a
     | none => env.musicFile path, 1)
  | none => (env.musicFile path, 0)

/-- The per-entry body of the loop in `__create_playlist`: a plain filename
goes through `_af_for`; a syntactically valid URI is converted with `uri2fsn`
and on success also goes through `_af_for`; when the conversion raises
`ValueError` a `RemoteFile` is built from the original string. -/
def process_entry (env : Env α) (library : Option (String → Option α))
    (source_dir : String) (filename : String) : Option α :=
  if !(env.uri_is_valid filename) then
    _af_for env library source_dir filename
  else
    match env.uri2fsn filename with
    | none => some (env.remoteFile filename)
    | some fn => _af_for env library source_dir fn

/-- The `for i, filename in enumerate(files)` loop of `__create_playlist`
together with its `WaitLoadWindow`: `step i` is the result of `win.step()`
after processing the entry with index `i` (`true` means the user cancelled,
which `break`s the loop).  Returns the accumulated `songs` list and the number
of `win.step()` ticks performed. -/
def run_entries (env : Env α) (library : Option (String → Option α))
    (source_dir : String) (step : Nat → Bool) :
    List String → Nat → List (Option α) × Nat
  | [], _ => ([], 0)
  | f :: fs, i =>
    let s := process_entry env library source_dir f
    if step i then ([s], 1)
    else
      let r := run_entries env library source_dir step fs (i + 1)
      (s :: r.1, r.2 + 1)

/-- `__create_playlist(name, source_dir, files, library)` reduced to its
observable data: the final track list (the fresh playlist is extended with
`list(filter(None, songs))`) and the number of progress ticks. -/
def create_playlist (env : Env α) (library : Option (String → Option α))
    (source_dir : String) (step : Nat → Bool) (files : List String) :
    List α × Nat :=
  let r := run_entries env library source_dir step files 0
  (r.1.filterMap id, r.2)

/-- `parse_m3u`: collect filenames, then build the playlist. -/
def parse_m3u (env : Env α) (library : Option (String → Option α))
    (source_dir : String) (step : Nat → Bool) (lines : List (List Nat)) :
    List α × Nat :=
  create_playlist env library source_dir step (m3u_filenames env lines [])

/-- `parse_pls`: collect filenames (which can abort with the uncaught
`ValueError`), then build the playlist. -/
def parse_pls (env : Env α) (library : Option (String → Option α))
    (source_dir : String) (step : Nat → Bool) (lines : List (List Nat)) :
    Except Unit (List α × Nat) :=
  (pls_filenames env lines []).map (create_playlist env library source_dir step)

/-- `confirm_remove_playlist_tracks_dialog_invoke(parent, songs, Confirmer)`
reduced to its observable data.  Songs are collapsed to a set
(`songs = set(songs)`, embedded as `List.dedup`); an empty set returns `True`
at once.  Otherwise one dialog is constructed and run; `confirm n` abstracts
`Confirmer(...).run() == Confirmer.RESPONSE_INVOKE` for the dialog whose title
shows the track count `n`.  Returns the response and the number of dialogs
run. -/
def confirm_remove_tracks (songs : List Nat) (confirm : Nat → Bool) :
    Bool × Nat :=
  let s := songs.dedup
  if s.isEmpty then (true, 0)
  else (confirm s.length, 1)

/-- The library-lookup-then-probe step of `_af_for`, applied to an already
canonicalized path: used to state which path `_af_for` resolves and consults. -/
def af_lookup (env : Env α) (library : Option (String → Option α))
    (p : String) : Option α :=
  match library with
  | some lib =>
    match lib p with
    | some a => some a
    | none => env.musicFile p
  | none => env.musicFile p

/-- Whether an `Except` computation finished without raising. -/
def exceptIsOk {ε : Type _} {β : Type _} : Except ε β → Bool
  | Except.ok _ => true
  | Except.error _ => false

/-- A concrete environment over `α := Nat` used to evaluate the definitions on
closed inputs: ASCII-only decoding, `http://` and `file://` recognised as
URIs, `file://` convertible to a local path, identity `realpath`, and a probe
that fails exactly on the empty path. -/
def env0 : Env Nat where
  bytes2fsn := fun l =>
    if l.all (fun b => b < 128) then some (String.mk (l.map Char.ofNat))
    else none
  uri_is_valid := fun s => str_starts s "http://" || str_starts s "file://"
  uri2fsn := fun s => if str_starts s "file://" then some (str_drop s 7) else none
  realpath := fun s => s
  musicFile := fun s => if s = "" then none else some s.length
  remoteFile := fun s => s.length + 1000

/-- A concrete library for closed evaluations: contains exactly one track. -/
def lib0 : String → Option Nat :=
  fun s => if s = "/music/a.mp3" then some 7 else none

example : bstrip [32, 102, 105, 108, 101, 10] = fileBytes := by decide

example : pls_filenames env0 [[102, 105, 108, 101, 10]] [] = Except.error () :=
  rfl

example : m3u_filenames env0 [[10]] [] = [""] := by decide

example :
    pls_filenames env0
      [[70, 105, 108, 101, 49, 61, 47, 97, 10], [88, 61, 89]] [] =
      Except.ok ["/a"] := by
  rfl

/-! ### Auxiliary lemmas -/

theorem length_filterMap_eq_countP {β : Type v} {γ : Type w} (f : β → Option γ) :
    ∀ l : List β, (l.filterMap f).length = l.countP (fun a => (f a).isSome)
  | [] => rfl
  | x :: xs => by
    cases h : f x <;>
      simp [List.filterMap_cons, List.countP_cons, h,
        length_filterMap_eq_countP f xs]

theorem filterMap_id_map {β : Type v} {γ : Type w} (f : β → Option γ) :
    ∀ l : List β, (l.map f).filterMap id = l.filterMap f
  | [] => rfl
  | x :: xs => by
    cases h : f x <;> simp [List.filterMap_cons, h, filterMap_id_map f xs]

theorem filterMap_comp {β : Type v} {γ : Type w} {δ : Type u} (f : β → Option γ) (g : γ → Option δ) :
    ∀ l : List β, (l.filterMap f).filterMap g =
      l.filterMap (fun x => (f x).bind g)
  | [] => rfl
  | x :: xs => by
    cases h : f x <;> simp [List.filterMap_cons, h, filterMap_comp f g xs]

theorem countP_filter_and {β : Type v} (p q : β → Bool) :
    ∀ l : List β, (l.filter q).countP p = l.countP (fun a => p a && q a)
  | [] => rfl
  | x :: xs => by
    cases hq : q x <;> cases hp : p x <;>
      simp [List.filter_cons, List.countP_cons, hq, hp, countP_filter_and p q xs]

theorem countP_map_comp {β : Type v} {γ : Type w} (p : γ → Bool) (f : β → γ) :
    ∀ l : List β, (l.map f).countP p = l.countP (fun a => p (f a))
  | [] => rfl
  | x :: xs => by
    cases h : p (f x) <;>
      simp [List.countP_cons, h, countP_map_comp p f xs]

theorem bindex_exists_of_mem {b : Nat} :
    ∀ {l : List Nat}, b ∈ l → ∃ i, bindex l b = some i
  | x :: xs, hm => by
    by_cases h : x == b
    · exact ⟨0, by simp [bindex, h]⟩
    · have hxs : b ∈ xs := by
        cases hm with
        | head => exact absurd (by simp) h
        | tail _ h2 => exact h2
      obtain ⟨j, hj⟩ := bindex_exists_of_mem hxs
      exact ⟨j + 1, by simp [bindex, h, hj]⟩

theorem drop_bindex_eq_after_eq :
    ∀ {l : List Nat} {i : Nat}, bindex l 61 = some i → l.drop (i + 1) = after_eq l
  | x :: xs, i, h => by
    by_cases hx : x == 61
    · have hi : i = 0 := by
        simp [bindex, hx] at h
        omega
      subst hi
      simp [after_eq, List.dropWhile_cons, hx]
    · have hrec : (bindex xs 61).map (· + 1) = some i := by
        simpa [bindex, hx] using h
      obtain ⟨j, hj, hij⟩ : ∃ j, bindex xs 61 = some j ∧ i = j + 1 := by
        cases hb : bindex xs 61 with
        | none => rw [hb] at hrec; simp at hrec
        | some j => rw [hb] at hrec; simp at hrec; exact ⟨j, rfl, hrec.symm⟩
      subst hij
      have : (x :: xs).drop (j + 1 + 1) = xs.drop (j + 1) := rfl
      rw [this, drop_bindex_eq_after_eq hj]
      simp [after_eq, List.dropWhile_cons, hx]

theorem run_entries_no_stop (env : Env α) (lib : Option (String → Option α))
    (dir : String) :
    ∀ (files : List String) (i : Nat),
      run_entries env lib dir (fun _ => false) files i =
        (files.map (process_entry env lib dir), files.length)
  | [], _ => rfl
  | f :: fs, i => by
    simp [run_entries, run_entries_no_stop env lib dir fs (i + 1)]

theorem run_entries_ticks_eq (env : Env α) (lib : Option (String → Option α))
    (dir : String) (step : Nat → Bool) :
    ∀ (files : List String) (i : Nat),
      (run_entries env lib dir step files i).2 =
        (run_entries env lib dir step files i).1.length
  | [], _ => rfl
  | f :: fs, i => by
    by_cases h : step i = true <;>
      simp [run_entries, h, run_entries_ticks_eq env lib dir step fs (i + 1)]

theorem run_entries_length_le (env : Env α) (lib : Option (String → Option α))
    (dir : String) (step : Nat → Bool) :
    ∀ (files : List String) (i : Nat),
      (run_entries env lib dir step files i).1.length ≤ files.length
  | [], _ => by simp [run_entries]
  | f :: fs, i => by
    by_cases h : step i = true
    · simp [run_entries, h]
    · simp [run_entries, h]
      exact run_entries_length_le env lib dir step fs (i + 1)

theorem run_entries_stop_bound (env : Env α) (lib : Option (String → Option α))
    (dir : String) (step : Nat → Bool) (k : Nat) (hk : step k = true) :
    ∀ (files : List String) (i : Nat), i ≤ k →
      (run_entries env lib dir step files i).1.length ≤ k + 1 - i
  | [], i, _ => by simp [run_entries]
  | f :: fs, i, hik => by
    by_cases h : step i = true
    · simp [run_entries, h]
      omega
    · have hik2 : i + 1 ≤ k := by
        rcases Nat.lt_or_ge i k with h2 | h2
        · omega
        · have : i = k := Nat.le_antisymm hik h2
          rw [this] at h
          exact absurd hk h
      have hrec := run_entries_stop_bound env lib dir step k hk fs (i + 1) hik2
      simp [run_entries, h]
      omega

theorem map_some_filterMap_id_sublist :
    ∀ l : List (Option α), List.Sublist ((l.filterMap id).map some) l
  | [] => List.Sublist.slnil
  | none :: xs => by
    simpa [List.filterMap_cons] using
      List.Sublist.cons none (map_some_filterMap_id_sublist xs)
  | some a :: xs => by
    simpa [List.filterMap_cons] using
      List.Sublist.cons₂ (some a) (map_some_filterMap_id_sublist xs)

theorem m3u_filenames_eq (env : Env α) :
    ∀ (lines : List (List Nat)) (acc : List String),
      m3u_filenames env lines acc =
        acc ++ ((lines.map bstrip).filter
          (fun l => !(bstarts l [35]))).filterMap env.bytes2fsn
  | [], acc => by simp [m3u_filenames]
  | l :: ls, acc => by
    by_cases h : bstarts (bstrip l) [35] = true
    · simp [m3u_filenames, h, List.filter_cons,
        m3u_filenames_eq env ls acc]
    · cases hd : env.bytes2fsn (bstrip l) with
      | some f =>
        simp [m3u_filenames, h, attempt_add, hd, List.filter_cons,
          List.filterMap_cons, m3u_filenames_eq env ls (acc ++ [f])]
      | none =>
        simp [m3u_filenames, h, attempt_add, hd, List.filter_cons,
          List.filterMap_cons, m3u_filenames_eq env ls acc]

theorem pls_filenames_ok (env : Env α) :
    ∀ lines : List (List Nat),
      (∀ l ∈ lines, bstarts (blower (bstrip l)) fileBytes = true →
        (61 : Nat) ∈ bstrip l) →
      ∀ acc, ∃ fns, pls_filenames env lines acc = Except.ok fns
  | [], _, acc => ⟨acc, rfl⟩
  | l :: ls, h, acc => by
    have hls : ∀ l2 ∈ ls, bstarts (blower (bstrip l2)) fileBytes = true →
        (61 : Nat) ∈ bstrip l2 :=
      fun l2 hm => h l2 (List.mem_cons_of_mem l hm)
    by_cases hf : bstarts (blower (bstrip l)) fileBytes = true
    · obtain ⟨i, hi⟩ := bindex_exists_of_mem (h l (List.mem_cons_self l ls) hf)
      obtain ⟨fns, hfns⟩ := pls_filenames_ok env ls hls
        (attempt_add env (bstrip ((bstrip l).drop (i + 1))) acc)
      exact ⟨fns, by simp [pls_filenames, hf, hi, hfns]⟩
    · obtain ⟨fns, hfns⟩ := pls_filenames_ok env ls hls acc
      exact ⟨fns, by simp [pls_filenames, hf, hfns]⟩

/-! ### Claims -/

/-- Claim C1 counterexample: a PLS line whose trimmed content is exactly
`file` (so it starts case-insensitively with `file` but contains no `=`)
makes `parse_pls` raise an uncaught `ValueError` from `line.index(b"=")`;
the parse aborts and no playlist is returned, contrary to the claim. -/
theorem claim_C1_counterexample :
    parse_pls env0 none "" (fun _ => false) [[102, 105, 108, 101, 10]] =
      Except.error () :=
  rfl

/-- Claim C1 (amended): `parse_pls` aborts with `ValueError` exactly on a
line whose trimmed content starts case-insensitively with `file` but
contains no `=`; if every such `file`-prefixed line contains a `=`, the
parse never raises (all other malformed lines are skipped) and a playlist
is returned. -/
theorem claim_C1_amended (env : Env α) (lib : Option (String → Option α))
    (dir : String) (step : Nat → Bool) (lines : List (List Nat))
    (h : ∀ l ∈ lines, bstarts (blower (bstrip l)) fileBytes = true →
      (61 : Nat) ∈ bstrip l) :
    exceptIsOk (parse_pls env lib dir step lines) = true := by
  obtain ⟨fns, hfns⟩ := pls_filenames_ok env lines h []
  simp [parse_pls, hfns, exceptIsOk, Except.map]

/-- Claim C1 witness: a PLS input with one well-formed `File1=` line and one
garbage line parses without raising. -/
theorem claim_C1_amended_witness :
    exceptIsOk (parse_pls env0 none "" (fun _ => false)
      [[70, 105, 108, 101, 49, 61, 47, 97], [120, 120]]) = true :=
  claim_C1_amended env0 none "" (fun _ => false)
    [[70, 105, 108, 101, 49, 61, 47, 97], [120, 120]] (by decide)

/-- Claim C2 counterexample: a line consisting only of whitespace strips to
the empty line, which does not start with `#`, and `parse_m3u` still treats
it as a candidate entry (the empty byte string decodes to the empty
filename), contradicting the claim that a candidate must be non-empty. -/
theorem claim_C2_counterexample :
    bstrip [10] = [] ∧ m3u_filenames env0 [[10]] [] = [""] := by
  constructor
  · decide
  · decide

/-- Claim C2 (amended): after stripping, a line is skipped exactly when it
starts with `#`, and every other line — the empty line included — is a
candidate; a candidate whose bytes do not decode is silently dropped, and
with no cancellation the output playlist length equals the number of lines
whose stripped form decodes, resolves to a track, and is not a comment. -/
theorem claim_C2_amended (env : Env α) (lib : Option (String → Option α))
    (dir : String) (lines : List (List Nat)) :
    m3u_filenames env lines [] =
      ((lines.map bstrip).filter
        (fun l => !(bstarts l [35]))).filterMap env.bytes2fsn
    ∧ (parse_m3u env lib dir (fun _ => false) lines).1.length =
        lines.countP (fun l =>
          ((env.bytes2fsn (bstrip l)).bind (process_entry env lib dir)).isSome
            && !(bstarts (bstrip l) [35])) := by
  constructor
  · simpa using m3u_filenames_eq env lines []
  · have h1 : (parse_m3u env lib dir (fun _ => false) lines).1 =
        (m3u_filenames env lines []).filterMap (process_entry env lib dir) := by
      simp only [parse_m3u, create_playlist, run_entries_no_stop,
        filterMap_id_map]
    rw [h1, m3u_filenames_eq env lines [], List.nil_append, filterMap_comp,
      length_filterMap_eq_countP, countP_filter_and, countP_map_comp]

/-- Claim C3: a PLS line is a candidate exactly when its trimmed content has
the case-insensitive prefix `file`: any other line is skipped with no effect
on the accumulated filenames, and for a candidate line containing `=` the raw
entry attempted is everything after the first `=` of the trimmed line, with
surrounding whitespace trimmed. -/
theorem claim_C3 (env : Env α) (l : List Nat) (ls : List (List Nat))
    (acc : List String) :
    (bstarts (blower (bstrip l)) fileBytes = false →
      pls_filenames env (l :: ls) acc = pls_filenames env ls acc)
    ∧ (bstarts (blower (bstrip l)) fileBytes = true → (61 : Nat) ∈ bstrip l →
      pls_filenames env (l :: ls) acc =
        pls_filenames env ls
          (attempt_add env (bstrip (after_eq (bstrip l))) acc)) := by
  constructor
  · intro h
    simp [pls_filenames, h]
  · intro h hm
    obtain ⟨i, hi⟩ := bindex_exists_of_mem hm
    have hd := drop_bindex_eq_after_eq hi
    simp [pls_filenames, h, hi, hd]

/-- Claim C3 witness: a non-`file` line is skipped, and for
`b"File1= /a.mp3"` the attempted entry is the trimmed suffix after the
first `=`. -/
theorem claim_C3_witness :
    (pls_filenames env0 [[120, 121]] [] = pls_filenames env0 [] [])
    ∧ pls_filenames env0 [[70, 105, 108, 101, 49, 61, 32, 47, 97]] [] =
        pls_filenames env0 []
          (attempt_add env0
            (bstrip (after_eq (bstrip [70, 105, 108, 101, 49, 61, 32, 47, 97])))
            []) :=
  ⟨(claim_C3 env0 [120, 121] [] []).1 (by decide),
   (claim_C3 env0 [70, 105, 108, 101, 49, 61, 32, 47, 97] [] []).2
     (by decide) (by decide)⟩

/-- Claim C4: a non-URI entry is resolved by joining it with the source
directory and canonicalizing with `realpath`; for a relative entry and a
normal directory the join is `dir ++ "/" ++ entry`, so the entry is anchored
at the source directory of the playlist, and the lookup-then-probe step runs on
the realpath of that join. -/
theorem claim_C4 (env : Env α) (lib : Option (String → Option α))
    (dir fn : String) (h : env.uri_is_valid fn = false)
    (hfn : str_starts fn "/" = false) (hdir : dir ≠ "")
    (hdirs : str_ends dir "/" = false) :
    os_path_join dir fn = dir ++ "/" ++ fn
    ∧ process_entry env lib dir fn =
        af_lookup env lib (env.realpath (dir ++ "/" ++ fn)) := by
  have hj : os_path_join dir fn = dir ++ "/" ++ fn := by
    simp [os_path_join, hfn, hdir, hdirs]
  refine ⟨hj, ?_⟩
  cases lib with
  | none => simp [process_entry, h, _af_for, af_lookup, hj]
  | some L =>
    cases hL : L (env.realpath (dir ++ "/" ++ fn)) <;>
      simp [process_entry, h, _af_for, af_lookup, hj, hL]

/-- Claim C4 witness: the relative entry `song.mp3` with source directory
`/pl` resolves through the realpath of `/pl/song.mp3`. -/
theorem claim_C4_witness :
    os_path_join "/pl" "song.mp3" = "/pl" ++ "/" ++ "song.mp3"
    ∧ process_entry env0 (some lib0) "/pl" "song.mp3" =
        af_lookup env0 (some lib0) (env0.realpath ("/pl" ++ "/" ++ "song.mp3")) :=
  claim_C4 env0 (some lib0) "/pl" "song.mp3" (by decide) (by decide)
    (by decide) (by decide)

/-- Claim C5: an entry that is a syntactically valid URI on which `uri2fsn`
raises (e.g. an `http://` URI) always becomes a remote-stream track built
from the original string; it is never dropped, and the result does not
depend on the library at all. -/
theorem claim_C5 (env : Env α) (lib : Option (String → Option α))
    (dir fn : String) (h1 : env.uri_is_valid fn = true)
    (h2 : env.uri2fsn fn = none) :
    process_entry env lib dir fn = some (env.remoteFile fn)
    ∧ ∀ lib2 : Option (String → Option α),
        process_entry env lib2 dir fn = some (env.remoteFile fn) := by
  have key : ∀ lib2 : Option (String → Option α),
      process_entry env lib2 dir fn = some (env.remoteFile fn) := by
    intro lib2
    simp [process_entry, h1, h2]
  exact ⟨key lib, key⟩

/-- Claim C5 witness: an `http://` entry becomes a remote track. -/
theorem claim_C5_witness :
    process_entry env0 (some lib0) "/pl" "http://radio.example/stream" =
      some (env0.remoteFile "http://radio.example/stream") :=
  (claim_C5 env0 (some lib0) "/pl" "http://radio.example/stream"
    (by decide) (by decide)).1

/-- Claim C6: for a local path, when a library is supplied and holds a track
at the canonical path, `_af_for` returns that existing track — no new track
is constructed (the probe function is irrelevant) — and the library is
queried exactly once; when the lookup misses or no library is supplied, a
track is constructed by probing, which yields `none` (absent, no raise) on
failure. -/
theorem claim_C6 (env : Env α) (L : String → Option α) (dir fn : String) :
    (∀ t, L (env.realpath (os_path_join dir fn)) = some t →
      _af_for env (some L) dir fn = some t ∧
      ∀ mf : String → Option α,
        _af_for { env with musicFile := mf } (some L) dir fn = some t)
    ∧ (L (env.realpath (os_path_join dir fn)) = none →
      _af_for env (some L) dir fn =
        env.musicFile (env.realpath (os_path_join dir fn)))
    ∧ _af_for env none dir fn =
        env.musicFile (env.realpath (os_path_join dir fn))
    ∧ _af_for_queries env (some L) dir fn = (_af_for env (some L) dir fn, 1)
    ∧ _af_for_queries env none dir fn = (_af_for env none dir fn, 0) := by
  refine ⟨?_, ?_, ?_, ?_, ?_⟩
  · intro t ht
    exact ⟨by simp [_af_for, ht], fun mf => by simp [_af_for, ht]⟩
  · intro h0
    simp [_af_for, h0]
  · simp [_af_for]
  · cases hL : L (env.realpath (os_path_join dir fn)) <;>
      simp [_af_for, _af_for_queries, hL]
  · simp [_af_for, _af_for_queries]

/-- Claim C6 witness: a library hit returns the shared track, and without a
library the probe result is returned. -/
theorem claim_C6_witness :
    _af_for env0 (some lib0) "/music" "a.mp3" = some 7
    ∧ _af_for env0 none "/music" "a.mp3" =
        env0.musicFile (env0.realpath (os_path_join "/music" "a.mp3")) :=
  ⟨((claim_C6 env0 lib0 "/music" "a.mp3").1 7 (by decide)).1,
   (claim_C6 env0 lib0 "/music" "a.mp3").2.2.1⟩

/-- Claim C7: the playlist is extended with exactly the resolved songs with
the absent (`None`) results filtered out, so the final track list, mapped
back into options, is an order-preserving sublist of the per-entry
resolution results: no null entries, original relative order. -/
theorem claim_C7 (env : Env α) (lib : Option (String → Option α))
    (dir : String) (step : Nat → Bool) (files : List String) :
    (create_playlist env lib dir step files).1 =
      (run_entries env lib dir step files 0).1.filterMap id
    ∧ List.Sublist ((create_playlist env lib dir step files).1.map some)
        (run_entries env lib dir step files 0).1 :=
  ⟨rfl, map_some_filterMap_id_sublist _⟩

/-- Claim C8: the progress sink ticks exactly once per processed entry
(resolved or not), at most one tick per input entry; if `step` signals stop
at tick index `k` (the `(k+1)`-th tick), at most `k+1` entries are processed
and the final playlist holds at most that many tracks, and never more tracks
than ticks. -/
theorem claim_C8 (env : Env α) (lib : Option (String → Option α))
    (dir : String) (step : Nat → Bool) (files : List String) :
    (run_entries env lib dir step files 0).2 =
      (run_entries env lib dir step files 0).1.length
    ∧ (run_entries env lib dir step files 0).1.length ≤ files.length
    ∧ (∀ k, step k = true →
        (create_playlist env lib dir step files).1.length ≤ k + 1)
    ∧ (create_playlist env lib dir step files).1.length ≤
        (run_entries env lib dir step files 0).2 := by
  have hticks := run_entries_ticks_eq env lib dir step files 0
  have hfil : (create_playlist env lib dir step files).1.length ≤
      (run_entries env lib dir step files 0).1.length := by
    simp only [create_playlist]
    exact List.length_filterMap_le _ _
  refine ⟨hticks, run_entries_length_le env lib dir step files 0, ?_,
    by rw [hticks]; exact hfil⟩
  intro k hk
  have hb := run_entries_stop_bound env lib dir step k hk files 0 (Nat.zero_le k)
  omega

/-- Claim C8 witness: cancelling at the second tick on a four-entry input
leaves at most two tracks. -/
theorem claim_C8_witness :
    (create_playlist env0 none "" (fun n => n == 1)
      ["a", "b", "c", "d"]).1.length ≤ 2 :=
  (claim_C8 env0 none "" (fun n => n == 1) ["a", "b", "c", "d"]).2.2.1 1
    (by decide)

/-- Claim C9: an entry that is a valid URI successfully converted by
`uri2fsn` to a local path `p` resolves exactly as `_af_for` on `p`, hence
exactly as importing the plain path `p` (which is not itself a URI) with the
same source directory. -/
theorem claim_C9 (env : Env α) (lib : Option (String → Option α))
    (dir u p : String) (h1 : env.uri_is_valid u = true)
    (h2 : env.uri2fsn u = some p) (h3 : env.uri_is_valid p = false) :
    process_entry env lib dir u = _af_for env lib dir p
    ∧ process_entry env lib dir u = process_entry env lib dir p := by
  have ha : process_entry env lib dir u = _af_for env lib dir p := by
    simp [process_entry, h1, h2]
  have hb : process_entry env lib dir p = _af_for env lib dir p := by
    simp [process_entry, h3]
  exact ⟨ha, ha.trans hb.symm⟩

/-- Claim C9 witness: the `file://` URI of `/music/a.mp3` imports the same
as the plain path. -/
theorem claim_C9_witness :
    process_entry env0 (some lib0) "" "file:///music/a.mp3" =
      process_entry env0 (some lib0) "" "/music/a.mp3" :=
  (claim_C9 env0 (some lib0) "" "file:///music/a.mp3" "/music/a.mp3"
    (by decide) (by decide) (by decide)).2

/-- Claim C10: with an empty songs collection the dialog helper returns
`True` at once and runs no dialog; the collection is collapsed to a set
first, so duplicates change neither the emptiness check nor the count the
dialog shows. -/
theorem claim_C10 (songs : List Nat) (confirm : Nat → Bool) :
    (songs = [] → confirm_remove_tracks songs confirm = (true, 0))
    ∧ confirm_remove_tracks songs confirm =
        confirm_remove_tracks songs.dedup confirm := by
  constructor
  · intro h
    subst h
    rfl
  · simp [confirm_remove_tracks, List.dedup_idem]

/-- Claim C10 witness: the empty collection returns `True` with no dialog. -/
theorem claim_C10_witness :
    confirm_remove_tracks [] (fun _ => false) = (true, 0) :=
  (claim_C10 [] (fun _ => false)).1 rfl
